import Mathlib

/-!
A verification development for the `go-plugin` monitoring-plugin helper
library.  The definitions below are a shallow embedding of `status.go` and
`plugin.go`: Go `float64` values and the results of `strconv.ParseFloat`
are modelled as rationals (`ℚ`), a Go `interface{}` metric value is
modelled by its `fmt %v` rendering together with the parse of that
rendering, strings are Lean `String`s, the `map[string]*checkMetric` is an
association list with unique keys, and the in-place mutation of `*Plugin`
becomes explicit state passing (`AddMetric` returns the new state together
with the optional error, the state being unchanged exactly on the code
paths where the Go function returns before any mutation).
-/

namespace GoPlugin

/-- The `Status` type of `status.go`: `OK WARNING CRITICAL UNKNOWN = iota`.
In Go it is an `int`; the library only ever constructs the four named
values (per-threshold statuses are `Status(i+1)` with `i ∈ {0,1}`), so the
embedding uses a four-element inductive. -/
inductive Status where
  | OK
  | WARNING
  | CRITICAL
  | UNKNOWN
deriving DecidableEq, Repr

/-- `Status.ExitCode`: the numeric code of a status (`int(st)`). -/
def Status.exitCode : Status → Nat
  | .OK => 0
  | .WARNING => 1
  | .CRITICAL => 2
  | .UNKNOWN => 3

/-- `Status.String` from `status.go` (`switch` on the code, default
`"UNKNOWN"`). -/
def Status.toText : Status → String
  | .OK => "OK"
  | .WARNING => "WARNING"
  | .CRITICAL => "CRITICAL"
  | .UNKNOWN => "UNKNOWN"

/-- The value of the digit list `cs` read in base 10 (helper for the model
of `strconv.ParseFloat`). -/
def digitsToNat (cs : List Char) : Nat :=
  cs.foldl (fun a c => a * 10 + (c.toNat - 48)) 0

/-- The exponent part after `e`/`E` in a float literal: an optional sign
followed by at least one digit. -/
def parseExpDigits (cs : List Char) : Option Int :=
  match cs with
  | [] => none
  | c :: rest =>
    let signed : Int × List Char :=
      if c = '+' then (1, rest) else if c = '-' then (-1, rest) else (1, c :: rest)
    if !signed.2.isEmpty && signed.2.all Char.isDigit then
      some (signed.1 * (digitsToNat signed.2 : Int))
    else none

/-- The rational `(n / d) * 10 ^ k`, built with `mkRat` and `Nat`
arithmetic only (so that concrete parses evaluate inside the kernel). -/
def scaleByExp (n d : Nat) (k : Int) : ℚ :=
  if 0 ≤ k then mkRat (n * 10 ^ k.toNat) d else mkRat n (d * 10 ^ (-k).toNat)

/-- The unsigned decimal float grammar `digits [. digits] [e exp]` (with at
least one digit in the mantissa), as a rational. -/
def parseUnsigned (cs : List Char) : Option ℚ :=
  let ip := cs.takeWhile Char.isDigit
  let rest := cs.dropWhile Char.isDigit
  match rest with
  | [] => if ip.isEmpty then none else some (mkRat (digitsToNat ip) 1)
  | '.' :: rest2 =>
    let fp := rest2.takeWhile Char.isDigit
    let rest3 := rest2.dropWhile Char.isDigit
    if ip.isEmpty && fp.isEmpty then none
    else
      let n := digitsToNat (ip ++ fp)
      let d := 10 ^ fp.length
      match rest3 with
      | [] => some (mkRat n d)
      | c :: rest4 =>
        if c = 'e' ∨ c = 'E' then (parseExpDigits rest4).map (scaleByExp n d)
        else none
  | c :: rest2 =>
    if ip.isEmpty then none
    else if c = 'e' ∨ c = 'E' then
      (parseExpDigits rest2).map (scaleByExp (digitsToNat ip) 1)
    else none

/-- Model of `strconv.ParseFloat(s, 64)` restricted to the decimal syntax
(optional sign, decimal mantissa, optional exponent), the only syntax the
repository's threshold specs and metric values exercise; the parsed value
is kept exact as a rational instead of being rounded to a `float64`, and
the hex-float / `inf` / `nan` spellings are not modelled. -/
def parseFloat (s : String) : Option ℚ :=
  match s.data with
  | [] => none
  | '+' :: rest => parseUnsigned rest
  | '-' :: rest => (parseUnsigned rest).map (fun q => -q)
  | cs => parseUnsigned cs

/-- `strings.Split` for the single-character separator, on the character
list: splitting never yields an empty list, and splitting the empty string
yields `[[]]`. -/
def splitChar (c : Char) : List Char → List (List Char)
  | [] => [[]]
  | x :: rest =>
    let r := splitChar c rest
    if x = c then [] :: r
    else
      match r with
      | [] => [[x]]
      | h :: t => (x :: h) :: t

/-- `strings.Split(arg, ":")` as used on threshold specs. -/
def splitColon (s : String) : List String :=
  (splitChar ':' s.data).map String.mk

/-- `strings.TrimPrefix(a, "@")` together with the `a != arg` inversion
test of `AddMetric`: the spec with a single leading `@` removed, and
whether one was removed. -/
def trimAt (a : String) : String × Bool :=
  match a.data with
  | '@' :: rest => (String.mk rest, true)
  | _ => (a, false)

/-- The raw range test of `AddMetric`'s `switch len(thresh)` (before
inversion), on the spec with any leading `@` already stripped: `none` is
the `Invalid format` error, `some b` the raw breach boolean. -/
def rangeBreached (val : ℚ) (arg : String) : Option Bool :=
  match splitColon arg with
  | [t0] =>
    match parseFloat t0 with
    | none => none
    | some tMax => some (decide (val < 0) || decide (val > tMax))
  | [t0, t1] =>
    if t0 = "~" then
      match parseFloat t1 with
      | none => none
      | some tMax => some (decide (val > tMax))
    else if t1 = "" then
      match parseFloat t0 with
      | none => none
      | some tMin => some (decide (val < tMin))
    else
      match parseFloat t0, parseFloat t1 with
      | some tMin, some tMax =>
        if tMin > tMax then none else some (decide (val < tMin) || decide (val > tMax))
      | _, _ => none
  | _ => none

/-- The outcome of one iteration of `AddMetric`'s threshold loop for one
spec string: skipped (empty spec), format error, or an evaluation carrying
the final breach boolean and the inversion flag. -/
inductive ThreshResult where
  | skipped
  | formatError
  | eval (breached : Bool) (invert : Bool)
deriving DecidableEq, Repr

/-- One threshold spec evaluated against a value, following the loop body
of `AddMetric`: empty specs are skipped before anything else, a leading
`@` is stripped and flips the raw result. -/
def evalThreshold (val : ℚ) (a : String) : ThreshResult :=
  if a.data.isEmpty then .skipped
  else
    let t := trimAt a
    match rangeBreached val t.1 with
    | none => .formatError
    | some raw => .eval (if t.2 then !raw else raw) t.2

/-- The `checkMetric` record of `plugin.go`.  The Go `value interface{}` is
observed only through `fmt`'s `%v` rendering (stored here) and through
`i2f`; the embedding stores the rendering. -/
structure CheckMetric where
  value : String
  status : Status
  uom : String
  warn : String
  critical : String
deriving DecidableEq, Repr

/-- A Go `interface{}` value as it enters `AddMetric`, modelled by its
`fmt %v` rendering (for a `float64` the shortest round-tripping decimal,
for an int its decimal digits, for a string the string itself). -/
structure GoValue where
  rendered : String
deriving DecidableEq, Repr

/-- `i2f`: the conversion of a metric value to `float64`.  For the string
and integer cases the Go code formats with `%v` and calls
`strconv.ParseFloat`; for the `float32`/`float64` cases the direct
conversion agrees with parsing the `%v` rendering, which round-trips. -/
def i2f (v : GoValue) : Option ℚ :=
  parseFloat v.rendered

/-- The `Plugin` struct of `plugin.go` (the fields the core engine reads:
status, messages, metrics, plus the exported configuration fields). -/
structure Plugin where
  status : Status
  messages : List String
  metrics : List (String × CheckMetric)
  Name : String
  Version : String
  AllMetricsInOutput : Bool
  MessageSeparator : String
deriving DecidableEq, Repr

/-- `New`: a fresh plugin with status `OK`, no messages, no metrics. -/
def New (name version : String) : Plugin :=
  { status := .OK, messages := [], metrics := [], Name := name, Version := version,
    AllMetricsInOutput := false, MessageSeparator := ", " }

/-- Lookup in the model of the `map[string]*checkMetric`. -/
def lookupM : List (String × CheckMetric) → String → Option CheckMetric
  | [], _ => none
  | (k, m) :: rest, key => if key = k then some m else lookupM rest key

/-- The name quoting at the top of `AddMetric`: a name containing a space
and not already starting with a single quote is wrapped in single quotes;
the result is the stored display name. -/
def displayName (name : String) : String :=
  if name.data.any (fun c => c = ' ') && !(decide (name.data.take 1 = ['\''])) then
    "'" ++ name ++ "'"
  else name

/-- `AddMessage` (in the library every alert message is already formatted,
so the variadic `fmt.Sprintf` path carries no extra content). -/
def addMessage (p : Plugin) (msg : String) : Plugin :=
  { p with messages := p.messages ++ [msg] }

/-- The worst-wins merge implemented by `UpdateStatus`: the new status
replaces the old exactly when its numeric code is strictly higher. -/
def worstWins (a b : Status) : Status :=
  if b.exitCode > a.exitCode then b else a

/-- `UpdateStatus`. -/
def updateStatus (p : Plugin) (s : Status) : Plugin :=
  { p with status := worstWins p.status s }

/-- `AddResult`: `UpdateStatus` then `AddMessage`. -/
def addResult (p : Plugin) (s : Status) (msg : String) : Plugin :=
  addMessage (updateStatus p s) msg

/-- `SetMessage`: discard accumulated messages, then `AddMessage`. -/
def setMessage (p : Plugin) (msg : String) : Plugin :=
  addMessage { p with messages := [] } msg

/-- The private `exit` helper: set the status unconditionally, replace the
messages, clear the metrics (the state that `Final` then renders).
`ExitOK`/`ExitWarning`/`ExitCritical`/`ExitUnknown` call it with the four
statuses. -/
def exitState (p : Plugin) (code : Status) (msg : String) : Plugin :=
  { setMessage { p with status := code } msg with metrics := [] }

/-- The `thresholdName` chosen by `switch i` in the threshold loop. -/
def threshName (i : Nat) : String :=
  if i = 0 then "warning" else if i = 1 then "critical" else ""

/-- `Status(i + 1)` for the loop index: warning breaches give `WARNING`,
critical breaches give `CRITICAL` (`i ∈ {0, 1}`, as `args[1:]` has at most
two entries). -/
def statusOfThresh (i : Nat) : Status :=
  if i = 0 then .WARNING else .CRITICAL

/-- The `metric.warn = a` / `metric.critical = a` assignment of
`switch i`. -/
def setSpecField (i : Nat) (a : String) (m : CheckMetric) : CheckMetric :=
  if i = 0 then { m with warn := a } else if i = 1 then { m with critical := a } else m

/-- The synthesized alert message: `<name> is <value><uom> (outside <spec>)`,
with `inside` instead of `outside` for an inverted spec. -/
def alertText (name vrepr uom : String) (invert : Bool) (a : String) : String :=
  name ++ " is " ++ vrepr ++ uom ++ (if invert then " (inside " else " (outside ") ++ a ++ ")"

/-- One iteration of `AddMetric`'s threshold loop: on a format error the
whole call errors out; otherwise the spec is recorded in the metric and a
breach replaces the metric's status and the pending alert message. -/
def threshStep (val : ℚ) (name : String) (i : Nat) (a : String) (m : CheckMetric)
    (msg : String) : Except String (CheckMetric × String) :=
  match evalThreshold val a with
  | .skipped => .ok (m, msg)
  | .formatError =>
    .error ("Invalid format of " ++ threshName i ++ " threshold " ++ name ++ ": " ++ a)
  | .eval breached invert =>
    let m1 := setSpecField i a m
    if breached then
      .ok ({ m1 with status := statusOfThresh i }, alertText name m1.value m1.uom invert a)
    else .ok (m1, msg)

/-- The threshold loop `for i, a := range args[1:]`. -/
def processThresholds (val : ℚ) (name : String) :
    List (Nat × String) → CheckMetric → String → Except String (CheckMetric × String)
  | [], m, msg => .ok (m, msg)
  | (i, a) :: rest, m, msg =>
    match threshStep val name i a m msg with
    | .error e => .error e
    | .ok (m1, msg1) => processThresholds val name rest m1 msg1

/-- The tail of a successful `AddMetric`: append the alert message (or the
informational message in `AllMetricsInOutput` mode), store the metric, and
fold its status into the run status. -/
def commit (p : Plugin) (name : String) (m : CheckMetric) (alertMessage : String) : Plugin :=
  let p1 :=
    if alertMessage.length > 0 then addMessage p alertMessage
    else if p.AllMetricsInOutput then addMessage p (name ++ " is " ++ m.value ++ m.uom)
    else p
  let p2 := { p1 with metrics := p1.metrics ++ [(name, m)] }
  updateStatus p2 m.status

/-- The validation part of `AddMetric`, up to its last `return err`: every
`return` before the mutating tail becomes an `error`, and the successful
fall-through carries the built metric and the pending alert message. -/
def addMetricCore (p : Plugin) (name : String) (v : GoValue) (args : List String) :
    Except String (CheckMetric × String) :=
  if (lookupM p.metrics name).isSome then .error ("Duplicated metric " ++ name)
  else
    let uom := match args with | [] => "" | u :: _ => u
    match i2f v with
    | none => .error ("Invalid value of " ++ name ++ ": " ++ v.rendered)
    | some val =>
      let m0 : CheckMetric :=
        { value := v.rendered, status := .OK, uom := uom, warn := "", critical := "" }
      if args.length = 2 ∨ args.length = 3 then
        processThresholds val name (List.enum (args.drop 1)) m0 ""
      else if args.length > 3 then .error "Too many arguments"
      else .ok (m0, "")

/-- `AddMetric`, as explicit state passing: the pair is the plugin state
after the call and the returned error.  Every error return in the Go code
happens before any mutation of the plugin, which the translation renders
by returning the input state unchanged alongside the error. -/
def addMetric (p : Plugin) (rawName : String) (v : GoValue) (args : List String) :
    Plugin × Option String :=
  let name := displayName rawName
  match addMetricCore p name v args with
  | .error e => (p, some e)
  | .ok (m, alertMessage) => (commit p name m alertMessage, none)

/-- `sort.Strings`: the metric names in ascending lexicographic order. -/
def sortStrings (l : List String) : List String :=
  l.insertionSort (fun a b => a ≤ b)

/-- `strings.Join(messages, separator)`. -/
def joinSep (sep : String) : List String → String
  | [] => ""
  | [x] => x
  | x :: xs => x ++ sep ++ joinSep sep xs

/-- Concatenation of the rendered per-metric fragments. -/
def strConcat : List String → String
  | [] => ""
  | x :: xs => x ++ strConcat xs

/-- The keys of the metric map in the order `Final` walks them. -/
def renderedKeys (p : Plugin) : List String :=
  sortStrings (p.metrics.map Prod.fst)

/-- One metric in the performance-data section:
`" %s=%v%s;%s;%s;;"` applied to name, value, uom, warn, critical. -/
def renderMetric (p : Plugin) (k : String) : String :=
  match lookupM p.metrics k with
  | some m => " " ++ k ++ "=" ++ m.value ++ m.uom ++ ";" ++ m.warn ++ ";" ++ m.critical ++ ";;"
  | none => ""

/-- The ` | name=value...` metrics section of `Final`, emitted only when at
least one metric exists, over the sorted keys. -/
def metricsBlock (p : Plugin) : String :=
  if p.metrics.length > 0 then " |" ++ strConcat ((renderedKeys p).map (renderMetric p))
  else ""

/-- The full line `Final` writes: status word, colon, optionally the joined
messages, optionally the metrics section, and a newline. -/
def finalOutput (p : Plugin) : String :=
  p.status.toText ++ ":" ++
    (if p.messages.length > 0 then " " ++ joinSep p.MessageSeparator p.messages else "") ++
    metricsBlock p ++ "\n"

/-- The process exit code `Final` passes to the exit hook. -/
def finalExitCode (p : Plugin) : Nat :=
  p.status.exitCode

theorem worstWins_le_left (a b : Status) : a.exitCode ≤ (worstWins a b).exitCode := by
  unfold worstWins
  split
  · omega
  · exact Nat.le_refl _

theorem worstWins_le_right (a b : Status) : b.exitCode ≤ (worstWins a b).exitCode := by
  unfold worstWins
  split
  · exact Nat.le_refl _
  · omega

theorem commit_status (p : Plugin) (n : String) (m : CheckMetric) (a : String) :
    (commit p n m a).status = worstWins p.status m.status := by
  unfold commit addMessage updateStatus
  split
  · rfl
  · split
    · rfl
    · rfl

theorem addMetric_status_le (p : Plugin) (name : String) (v : GoValue) (args : List String) :
    p.status.exitCode ≤ ((addMetric p name v args).1).status.exitCode := by
  simp only [addMetric]
  cases h : addMetricCore p (displayName name) v args with
  | error e =>
    exact Nat.le_refl _
  | ok pr =>
    obtain ⟨m, msg⟩ := pr
    show p.status.exitCode ≤ (commit p (displayName name) m msg).status.exitCode
    rw [commit_status]
    exact worstWins_le_left _ _

theorem splitChar_ne_nil (c : Char) (cs : List Char) : splitChar c cs ≠ [] := by
  induction cs with
  | nil => simp [splitChar]
  | cons x rest ih =>
    unfold splitChar
    split
    · simp
    · cases hsp : splitChar c rest with
      | nil => simp [hsp]
      | cons h t => simp [hsp]

theorem splitColon_ne_nil (s : String) : splitColon s ≠ [] := by
  unfold splitColon
  intro h
  exact splitChar_ne_nil ':' s.data (by simpa using h)

theorem splitColon_of_empty_data (a : String) (h : a.data = []) : splitColon a = [""] := by
  unfold splitColon
  rw [h]
  rfl

theorem parseFloat_of_empty_data (a : String) (h : a.data = []) : parseFloat a = none := by
  unfold parseFloat
  rw [h]

theorem trimAt_eq_of_not_invert (a : String) (h : (trimAt a).2 = false) :
    trimAt a = (a, false) := by
  unfold trimAt at h ⊢
  split at h
  · simp at h
  · rfl

theorem evalThreshold_of_not_empty {a : String} (h : a.data ≠ []) (val : ℚ) :
    evalThreshold val a =
      match rangeBreached val (trimAt a).1 with
      | none => .formatError
      | some raw => .eval (if (trimAt a).2 then !raw else raw) (trimAt a).2 := by
  have hb : a.data.isEmpty = false := by
    cases hd : a.data with
    | nil => exact absurd hd h
    | cons x xs => rfl
  unfold evalThreshold
  rw [hb]
  rfl

end GoPlugin

open GoPlugin

/-- C5: the worst-wins merge over severity codes OK=0, WARNING=1,
CRITICAL=2, UNKNOWN=3 is commutative, its result is at least each input
under the numeric-code ordering, UNKNOWN (the highest code) wins any merge
it participates in, and `UpdateStatus` changes the stored status exactly
when the new status's code is strictly higher. -/
theorem worstWins_merge_properties :
    (∀ a b : Status, worstWins a b = worstWins b a)
    ∧ (∀ a b : Status,
        a.exitCode ≤ (worstWins a b).exitCode ∧ b.exitCode ≤ (worstWins a b).exitCode)
    ∧ (∀ b : Status, worstWins .UNKNOWN b = .UNKNOWN ∧ worstWins b .UNKNOWN = .UNKNOWN)
    ∧ (∀ (p : Plugin) (s : Status),
        (s.exitCode > p.status.exitCode → (updateStatus p s).status = s)
        ∧ (s.exitCode ≤ p.status.exitCode → (updateStatus p s).status = p.status)) := by
  refine ⟨?_, ?_, ?_, ?_⟩
  · intro a b
    cases a <;> cases b <;> rfl
  · intro a b
    exact ⟨worstWins_le_left a b, worstWins_le_right a b⟩
  · intro b
    cases b <;> exact ⟨rfl, rfl⟩
  · intro p s
    constructor
    · intro h
      show worstWins p.status s = s
      unfold worstWins
      rw [if_pos h]
    · intro h
      show worstWins p.status s = p.status
      unfold worstWins
      rw [if_neg (by omega)]

/-- Witness for C5: `UpdateStatus` raises OK to CRITICAL and leaves
CRITICAL alone when offered WARNING. -/
theorem worstWins_merge_properties_witness :
    (updateStatus (New "c" "v") Status.CRITICAL).status = Status.CRITICAL
    ∧ (updateStatus { New "c" "v" with status := Status.CRITICAL } Status.WARNING).status
        = Status.CRITICAL :=
  ⟨(worstWins_merge_properties.2.2.2 (New "c" "v") Status.CRITICAL).1 (by decide),
   (worstWins_merge_properties.2.2.2 { New "c" "v" with status := Status.CRITICAL }
      Status.WARNING).2 (by decide)⟩

/-- C3: the three literal end-to-end scenarios.  A fresh run renders
`"OK:\n"` with exit code 0; metric `m1=123.456` with warning spec `"100"`
renders the WARNING line with exit code 1; metric `m1=123.456` with uom
`"TB"`, warning `"100"` and critical `"123"` renders the CRITICAL line
(critical evaluated after warning overrides it) with exit code 2. -/
theorem final_output_literals :
    (finalOutput (New "c" "v") = "OK:\n" ∧ finalExitCode (New "c" "v") = 0)
    ∧ ((addMetric (New "c" "v") "m1" ⟨"123.456"⟩ ["", "100"]).2 = none
       ∧ finalOutput (addMetric (New "c" "v") "m1" ⟨"123.456"⟩ ["", "100"]).1
           = "WARNING: m1 is 123.456 (outside 100) | m1=123.456;100;;;\n"
       ∧ finalExitCode (addMetric (New "c" "v") "m1" ⟨"123.456"⟩ ["", "100"]).1 = 1)
    ∧ ((addMetric (New "c" "v") "m1" ⟨"123.456"⟩ ["TB", "100", "123"]).2 = none
       ∧ finalOutput (addMetric (New "c" "v") "m1" ⟨"123.456"⟩ ["TB", "100", "123"]).1
           = "CRITICAL: m1 is 123.456TB (outside 123) | m1=123.456TB;100;123;;\n"
       ∧ finalExitCode (addMetric (New "c" "v") "m1" ⟨"123.456"⟩ ["TB", "100", "123"]).1 = 2) := by
  decide

/-- C9: the stored status is non-decreasing under `AddMetric` (on both the
success and the error path), `AddMessage`, `AddResult` and `UpdateStatus`;
the `exit` helper behind the `Exit*` shortcuts assigns the status
unconditionally, and it alone can lower it (shown at a concrete state). -/
theorem status_monotonic :
    (∀ (p : Plugin) (name : String) (v : GoValue) (args : List String),
        p.status.exitCode ≤ ((addMetric p name v args).1).status.exitCode)
    ∧ (∀ (p : Plugin) (msg : String), (addMessage p msg).status = p.status)
    ∧ (∀ (p : Plugin) (s : Status) (msg : String),
        p.status.exitCode ≤ (addResult p s msg).status.exitCode)
    ∧ (∀ (p : Plugin) (s : Status), p.status.exitCode ≤ (updateStatus p s).status.exitCode)
    ∧ (∀ (p : Plugin) (s : Status) (msg : String), (exitState p s msg).status = s)
    ∧ (exitState { New "c" "v" with status := Status.CRITICAL } Status.OK "down").status.exitCode
        < ({ New "c" "v" with status := Status.CRITICAL } : Plugin).status.exitCode := by
  refine ⟨addMetric_status_le, ?_, ?_, ?_, ?_, ?_⟩
  · intro p msg
    rfl
  · intro p s msg
    exact worstWins_le_left p.status s
  · intro p s
    exact worstWins_le_left p.status s
  · intro p s msg
    rfl
  · decide

/-- C1: the threshold breach decision for every value.  An empty spec is
skipped (no breach, no error); a non-inverted 1-part numeric spec `X`
breaches iff `value < 0` or `value > X`; `~:B` breaches iff `value > B`
(strictly, equality does not breach); `A:` breaches iff `value < A`; and
`A:B` with `A <= B` breaches iff `value < A` or `value > B`. -/
theorem threshold_breach_decision (val : ℚ) :
    evalThreshold val "" = .skipped
    ∧ (∀ (a : String) (X : ℚ), (trimAt a).2 = false → splitColon a = [a] →
        parseFloat a = some X →
        evalThreshold val a = .eval (decide (val < 0) || decide (val > X)) false)
    ∧ (∀ (a b : String) (B : ℚ), (trimAt a).2 = false → splitColon a = ["~", b] →
        parseFloat b = some B →
        evalThreshold val a = .eval (decide (val > B)) false)
    ∧ (∀ (a s : String) (A : ℚ), (trimAt a).2 = false → splitColon a = [s, ""] →
        parseFloat s = some A →
        evalThreshold val a = .eval (decide (val < A)) false)
    ∧ (∀ (a s t : String) (A B : ℚ), (trimAt a).2 = false → splitColon a = [s, t] →
        t ≠ "" → parseFloat s = some A → parseFloat t = some B → A ≤ B →
        evalThreshold val a = .eval (decide (val < A) || decide (val > B)) false) := by
  refine ⟨rfl, ?_, ?_, ?_, ?_⟩
  · intro a X hinv hsplit hparse
    have hne : a.data ≠ [] := by
      intro h0
      rw [parseFloat_of_empty_data a h0] at hparse
      exact Option.noConfusion hparse
    rw [evalThreshold_of_not_empty hne, trimAt_eq_of_not_invert a hinv]
    simp [rangeBreached, hsplit, hparse]
  · intro a b B hinv hsplit hparse
    have hne : a.data ≠ [] := by
      intro h0
      rw [splitColon_of_empty_data a h0] at hsplit
      exact List.noConfusion (List.cons.inj hsplit).2
    rw [evalThreshold_of_not_empty hne, trimAt_eq_of_not_invert a hinv]
    simp [rangeBreached, hsplit, hparse]
  · intro a s A hinv hsplit hparse
    have hne : a.data ≠ [] := by
      intro h0
      rw [splitColon_of_empty_data a h0] at hsplit
      exact List.noConfusion (List.cons.inj hsplit).2
    have hs : s ≠ "~" := by
      intro h0
      rw [h0] at hparse
      exact Option.noConfusion hparse
    rw [evalThreshold_of_not_empty hne, trimAt_eq_of_not_invert a hinv]
    simp [rangeBreached, hsplit, hparse, hs]
  · intro a s t A B hinv hsplit ht hparseA hparseB hAB
    have hne : a.data ≠ [] := by
      intro h0
      rw [splitColon_of_empty_data a h0] at hsplit
      exact List.noConfusion (List.cons.inj hsplit).2
    have hs : s ≠ "~" := by
      intro h0
      rw [h0] at hparseA
      exact Option.noConfusion hparseA
    rw [evalThreshold_of_not_empty hne, trimAt_eq_of_not_invert a hinv]
    simp [rangeBreached, hsplit, hparseA, hparseB, hs, ht, not_lt.mpr hAB]

/-- Witness for C1: the four non-empty spec shapes evaluated at the
concrete value 123.456 (and the spec literals of the design document). -/
theorem threshold_breach_decision_witness :
    evalThreshold (mkRat 15432 125) "100" = .eval true false
    ∧ evalThreshold (mkRat 15432 125) "~:123" = .eval true false
    ∧ evalThreshold (mkRat 15432 125) "200:" = .eval true false
    ∧ evalThreshold (mkRat 15432 125) "0:100" = .eval true false := by
  refine ⟨?_, ?_, ?_, ?_⟩
  · exact ((threshold_breach_decision (mkRat 15432 125)).2.1 "100" (mkRat 100 1)
      (by decide) (by decide) (by decide)).trans (by decide)
  · exact ((threshold_breach_decision (mkRat 15432 125)).2.2.1 "~:123" "123" (mkRat 123 1)
      (by decide) (by decide) (by decide)).trans (by decide)
  · exact ((threshold_breach_decision (mkRat 15432 125)).2.2.2.1 "200:" "200" (mkRat 200 1)
      (by decide) (by decide) (by decide)).trans (by decide)
  · exact ((threshold_breach_decision (mkRat 15432 125)).2.2.2.2 "0:100" "0" "100"
      (mkRat 0 1) (mkRat 100 1) (by decide) (by decide) (by decide) (by decide) (by decide)
      (by decide)).trans (by decide)

/-- The claim's wording of the format-error condition (C2), stated over
the spec after stripping a leading `@`: a bound token is non-numeric, the
spec splits on `:` into three or more parts, or a closed range has its
lower bound greater than its upper bound.  This is the spec-side predicate
the code's error behaviour is compared against. -/
def formatErrorSpec (arg : String) : Prop :=
  3 ≤ (splitColon arg).length
  ∨ (match splitColon arg with
     | [t] => parseFloat t = none
     | [t0, t1] =>
       if t0 = "~" then parseFloat t1 = none
       else if t1 = "" then parseFloat t0 = none
       else parseFloat t0 = none ∨ parseFloat t1 = none
         ∨ ∃ A B : ℚ, parseFloat t0 = some A ∧ parseFloat t1 = some B ∧ B < A
     | _ => False)

theorem rangeBreached_none_iff (val : ℚ) (arg : String) :
    rangeBreached val arg = none ↔ formatErrorSpec arg := by
  unfold rangeBreached formatErrorSpec
  cases hsp : splitColon arg with
  | nil => exact absurd hsp (splitColon_ne_nil arg)
  | cons t0 rest =>
    cases rest with
    | nil =>
      cases hp : parseFloat t0 <;> simp [hp]
    | cons t1 rest2 =>
      cases rest2 with
      | nil =>
        by_cases h0 : t0 = "~"
        · subst h0
          cases hp : parseFloat t1 <;> simp [hp]
        · by_cases h1 : t1 = ""
          · subst h1
            cases hp : parseFloat t0 <;> simp [h0, hp]
          · cases hpA : parseFloat t0 with
            | none => simp [h0, h1, hpA]
            | some A =>
              cases hpB : parseFloat t1 with
              | none => simp [h0, h1, hpA, hpB]
              | some B =>
                by_cases hr : A > B
                · simp [h0, h1, hpA, hpB, hr]
                · simp [h0, h1, hpA, hpB, hr]
      | cons t2 rest3 =>
        simp

/-- C2: threshold evaluation yields a format error exactly under the
claim's three conditions (non-numeric bound token, three or more `:`
parts after stripping a leading `@`, or a reversed closed range); when it
does, `AddMetric` returns exactly
`Invalid format of <warning|critical> threshold <metric>: <raw spec>` and
leaves the plugin unchanged, so the metric is not registered. -/
theorem threshold_format_error_exact :
    (∀ (val : ℚ) (a : String), a.data ≠ [] →
        (evalThreshold val a = .formatError ↔ formatErrorSpec (trimAt a).1))
    ∧ (∀ (p : Plugin) (name : String) (v : GoValue) (u w : String) (rest : List String)
        (val : ℚ), rest.length ≤ 1 →
        lookupM p.metrics (displayName name) = none → i2f v = some val →
        evalThreshold val w = .formatError →
        addMetric p name v (u :: w :: rest)
          = (p, some ("Invalid format of warning threshold " ++ displayName name ++ ": " ++ w)))
    ∧ (∀ (p : Plugin) (name : String) (v : GoValue) (u w c : String) (val : ℚ),
        lookupM p.metrics (displayName name) = none → i2f v = some val →
        evalThreshold val w ≠ .formatError → evalThreshold val c = .formatError →
        addMetric p name v [u, w, c]
          = (p, some ("Invalid format of critical threshold " ++ displayName name ++ ": " ++ c))) := by
  refine ⟨?_, ?_, ?_⟩
  · intro val a hne
    rw [evalThreshold_of_not_empty hne]
    cases hrb : rangeBreached val (trimAt a).1 with
    | none =>
      constructor
      · intro _
        exact (rangeBreached_none_iff val _).mp hrb
      · intro _
        rfl
    | some raw =>
      constructor
      · intro h
        exact ThreshResult.noConfusion h
      · intro hspec
        have hn := (rangeBreached_none_iff val ((trimAt a).1)).mpr hspec
        rw [hrb] at hn
        exact Option.noConfusion hn
  · intro p name v u w rest val hrest hlk hval hw
    have hcases : rest = [] ∨ ∃ c, rest = [c] := by
      cases rest with
      | nil => exact Or.inl rfl
      | cons c r2 =>
        cases r2 with
        | nil => exact Or.inr ⟨c, rfl⟩
        | cons d r3 => simp at hrest
    rcases hcases with rfl | ⟨c, rfl⟩
    · have hcore : addMetricCore p (displayName name) v [u, w] =
          .error ("Invalid format of warning threshold " ++ displayName name ++ ": " ++ w) := by
        unfold addMetricCore
        simp [hlk, hval, processThresholds, threshStep, hw, threshName]
      simp only [addMetric]
      rw [hcore]
    · have hcore : addMetricCore p (displayName name) v [u, w, c] =
          .error ("Invalid format of warning threshold " ++ displayName name ++ ": " ++ w) := by
        unfold addMetricCore
        simp [hlk, hval, processThresholds, threshStep, hw, threshName]
      simp only [addMetric]
      rw [hcore]
  · intro p name v u w c val hlk hval hw hc
    have hcore : addMetricCore p (displayName name) v [u, w, c] =
        .error ("Invalid format of critical threshold " ++ displayName name ++ ": " ++ c) := by
      unfold addMetricCore
      cases hev : evalThreshold val w with
      | skipped =>
        simp [hlk, hval, processThresholds, threshStep, hev, hc, threshName]
      | formatError => exact absurd hev hw
      | eval b i =>
        cases b <;>
          simp [hlk, hval, processThresholds, threshStep, hev, hc, threshName]
    simp only [addMetric]
    rw [hcore]

/-- Witness for C2: the two format-error messages at concrete inputs, and
the error-condition equivalence instantiated at spec `2000:100`. -/
theorem threshold_format_error_exact_witness :
    addMetric (New "c" "v") "m1" ⟨"1"⟩ ["", "20:100:200"]
      = (New "c" "v", some "Invalid format of warning threshold m1: 20:100:200")
    ∧ addMetric (New "c" "v") "m1" ⟨"1"⟩ ["", "5", "2000:100"]
      = (New "c" "v", some "Invalid format of critical threshold m1: 2000:100")
    ∧ (evalThreshold (mkRat 1 1) "2000:100" = .formatError
        ↔ formatErrorSpec (trimAt "2000:100").1) := by
  refine ⟨?_, ?_, ?_⟩
  · exact threshold_format_error_exact.2.1 (New "c" "v") "m1" ⟨"1"⟩ "" "20:100:200" []
      (mkRat 1 1) (by decide) (by decide) (by decide) (by decide)
  · exact threshold_format_error_exact.2.2 (New "c" "v") "m1" ⟨"1"⟩ "" "5" "2000:100"
      (mkRat 1 1) (by decide) (by decide) (by decide) (by decide)
  · exact threshold_format_error_exact.1 (mkRat 1 1) "2000:100" (by decide)

theorem alertText_length_pos (n v u : String) (i : Bool) (a : String) :
    0 < (alertText n v u i a).length := by
  unfold alertText
  have h1 : (")" : String).length = 1 := rfl
  cases i <;> simp [String.length_append, h1]

theorem commit_of_msg_pos (p : Plugin) (nm : String) (m : CheckMetric) (msg : String)
    (h : 0 < msg.length) :
    commit p nm m msg =
      { p with messages := p.messages ++ [msg], metrics := p.metrics ++ [(nm, m)],
               status := worstWins p.status m.status } := by
  unfold commit addMessage updateStatus
  split
  · rfl
  · rename_i hc
    exact absurd h hc

theorem lookupM_append_self (l : List (String × CheckMetric)) (k : String) (m : CheckMetric)
    (h : lookupM l k = none) : lookupM (l ++ [(k, m)]) k = some m := by
  induction l with
  | nil => simp [lookupM]
  | cons x rest ih =>
    obtain ⟨k2, m2⟩ := x
    unfold lookupM at h
    by_cases hk : k = k2
    · rw [if_pos hk] at h
      exact Option.noConfusion h
    · rw [if_neg hk] at h
      rw [List.cons_append]
      unfold lookupM
      rw [if_neg hk]
      exact ih h

/-- C4: whenever `AddMetric` returns an error the plugin state is
unchanged (no metric stored or modified, no message appended, status
unchanged — all error returns happen before any mutation); a duplicate
name in particular returns exactly `Duplicated metric <name>` with the
state, and so the originally stored metric, untouched. -/
theorem addMetric_error_atomicity :
    (∀ (p : Plugin) (name : String) (v : GoValue) (args : List String) (e : String),
        (addMetric p name v args).2 = some e → (addMetric p name v args).1 = p)
    ∧ (∀ (p : Plugin) (name : String) (v : GoValue) (args : List String),
        (lookupM p.metrics (displayName name)).isSome = true →
        addMetric p name v args = (p, some ("Duplicated metric " ++ displayName name))) := by
  constructor
  · intro p name v args e h
    simp only [addMetric] at h ⊢
    cases hcore : addMetricCore p (displayName name) v args with
    | error e2 => rfl
    | ok pr =>
      obtain ⟨m, msg⟩ := pr
      rw [hcore] at h
      simp at h
  · intro p name v args hlk
    have hcore : addMetricCore p (displayName name) v args
        = .error ("Duplicated metric " ++ displayName name) := by
      unfold addMetricCore
      rw [if_pos hlk]
    simp only [addMetric]
    rw [hcore]

/-- Witness for C4: a duplicate `m1` is rejected with the exact message and
the state (first metric included) kept; a `Too many arguments` error also
leaves the state unchanged. -/
theorem addMetric_error_atomicity_witness :
    addMetric ((addMetric (New "c" "v") "m1" ⟨"123.456"⟩ []).1) "m1" ⟨"9"⟩ []
      = ((addMetric (New "c" "v") "m1" ⟨"123.456"⟩ []).1, some "Duplicated metric m1")
    ∧ (addMetric (New "c" "v") "m2" ⟨"1"⟩ ["a", "b", "c", "d"]).1 = New "c" "v" :=
  ⟨addMetric_error_atomicity.2 ((addMetric (New "c" "v") "m1" ⟨"123.456"⟩ []).1) "m1" ⟨"9"⟩ []
      (by decide),
   addMetric_error_atomicity.1 (New "c" "v") "m2" ⟨"1"⟩ ["a", "b", "c", "d"]
      "Too many arguments" (by decide)⟩

theorem trimAt_data_ne_nil (a : String) (h : (trimAt a).2 = true) : a.data ≠ [] := by
  intro h0
  unfold trimAt at h
  rw [h0] at h
  simp at h

/-- C6: a leading `@` is stripped before range parsing and negates the raw
range result; a breach under an inverted spec is reported to the
aggregator as `<name> is <value><uom> (inside <spec>)` (the raw spec, `@`
included) appended to the messages together with a WARNING severity
update, while a non-inverted breach is reported with `(outside <spec>)`
and the same severity update. -/
theorem inversion_semantics :
    (∀ (val : ℚ) (a arg : String) (raw : Bool), trimAt a = (arg, true) →
        rangeBreached val arg = some raw →
        evalThreshold val a = .eval (!raw) true)
    ∧ (∀ (p : Plugin) (name : String) (v : GoValue) (uom a arg : String) (val : ℚ),
        lookupM p.metrics (displayName name) = none → i2f v = some val →
        trimAt a = (arg, true) → rangeBreached val arg = some false →
        (addMetric p name v [uom, a]).2 = none
        ∧ (addMetric p name v [uom, a]).1.messages
            = p.messages
              ++ [displayName name ++ " is " ++ v.rendered ++ uom ++ " (inside " ++ a ++ ")"]
        ∧ (addMetric p name v [uom, a]).1.status = worstWins p.status .WARNING)
    ∧ (∀ (p : Plugin) (name : String) (v : GoValue) (uom a : String) (val : ℚ),
        lookupM p.metrics (displayName name) = none → i2f v = some val →
        (trimAt a).2 = false → rangeBreached val a = some true →
        (addMetric p name v [uom, a]).2 = none
        ∧ (addMetric p name v [uom, a]).1.messages
            = p.messages
              ++ [displayName name ++ " is " ++ v.rendered ++ uom ++ " (outside " ++ a ++ ")"]
        ∧ (addMetric p name v [uom, a]).1.status = worstWins p.status .WARNING) := by
  refine ⟨?_, ?_, ?_⟩
  · intro val a arg raw htrim hrb
    have hne : a.data ≠ [] := trimAt_data_ne_nil a (by rw [htrim])
    rw [evalThreshold_of_not_empty hne, htrim]
    simp [hrb]
  · intro p name v uom a arg val hlk hval htrim hrb
    have hne : a.data ≠ [] := trimAt_data_ne_nil a (by rw [htrim])
    have hev : evalThreshold val a = .eval true true := by
      rw [evalThreshold_of_not_empty hne, htrim]
      simp [hrb]
    have hcore : addMetricCore p (displayName name) v [uom, a]
        = .ok ({ value := v.rendered, status := .WARNING, uom := uom, warn := a,
                 critical := "" },
               alertText (displayName name) v.rendered uom true a) := by
      unfold addMetricCore
      simp [hlk, hval, processThresholds, threshStep, hev, setSpecField, statusOfThresh]
    have heq : addMetric p name v [uom, a]
        = (commit p (displayName name)
             { value := v.rendered, status := .WARNING, uom := uom, warn := a, critical := "" }
             (alertText (displayName name) v.rendered uom true a), none) := by
      simp only [addMetric]
      rw [hcore]
    rw [heq, commit_of_msg_pos _ _ _ _ (alertText_length_pos _ _ _ _ _)]
    refine ⟨rfl, ?_, rfl⟩
    simp [alertText]
  · intro p name v uom a val hlk hval htrim hrb
    have hne : a.data ≠ [] := by
      intro h0
      have hnone : rangeBreached val a = none := by
        unfold rangeBreached
        rw [splitColon_of_empty_data a h0]
        rfl
      rw [hnone] at hrb
      exact Option.noConfusion hrb
    have hev : evalThreshold val a = .eval true false := by
      rw [evalThreshold_of_not_empty hne, trimAt_eq_of_not_invert a htrim]
      simp [hrb]
    have hcore : addMetricCore p (displayName name) v [uom, a]
        = .ok ({ value := v.rendered, status := .WARNING, uom := uom, warn := a,
                 critical := "" },
               alertText (displayName name) v.rendered uom false a) := by
      unfold addMetricCore
      simp [hlk, hval, processThresholds, threshStep, hev, setSpecField, statusOfThresh]
    have heq : addMetric p name v [uom, a]
        = (commit p (displayName name)
             { value := v.rendered, status := .WARNING, uom := uom, warn := a, critical := "" }
             (alertText (displayName name) v.rendered uom false a), none) := by
      simp only [addMetric]
      rw [hcore]
    rw [heq, commit_of_msg_pos _ _ _ _ (alertText_length_pos _ _ _ _ _)]
    refine ⟨rfl, ?_, rfl⟩
    simp [alertText]

/-- Witness for C6: value 123.456 against inverted spec `@200` (raw range
not breached, so the inverted spec breaches with an `(inside)` message)
and against plain spec `100` (an `(outside)` message). -/
theorem inversion_semantics_witness :
    (addMetric (New "c" "v") "m1" ⟨"123.456"⟩ ["", "@200"]).1.messages
      = ["m1 is 123.456 (inside @200)"]
    ∧ (addMetric (New "c" "v") "m1" ⟨"123.456"⟩ ["", "100"]).1.messages
      = ["m1 is 123.456 (outside 100)"]
    ∧ evalThreshold (mkRat 15432 125) "@200" = .eval true true :=
  ⟨((inversion_semantics.2.1 (New "c" "v") "m1" ⟨"123.456"⟩ "" "@200" "200" (mkRat 15432 125)
      (by decide) (by decide) (by decide) (by decide)).2.1).trans (by decide),
   ((inversion_semantics.2.2 (New "c" "v") "m1" ⟨"123.456"⟩ "" "100" (mkRat 15432 125)
      (by decide) (by decide) (by decide) (by decide)).2.1).trans (by decide),
   (inversion_semantics.1 (mkRat 15432 125) "@200" "200" false (by decide) (by decide)).trans
     (by decide)⟩

/-- C10: with both thresholds given, when the warning spec breaches and
the critical spec parses but does not breach, the stored metric keeps the
WARNING severity and the warning alert message: severity and alert text
are only assigned on a breach, never reset by a later non-breaching
evaluation. -/
theorem nonbreaching_critical_keeps_warning
    (p : Plugin) (name : String) (v : GoValue) (uom w c : String) (val : ℚ) (iw ic : Bool)
    (hlk : lookupM p.metrics (displayName name) = none) (hval : i2f v = some val)
    (hw : evalThreshold val w = .eval true iw) (hc : evalThreshold val c = .eval false ic) :
    (addMetric p name v [uom, w, c]).2 = none
    ∧ lookupM ((addMetric p name v [uom, w, c]).1).metrics (displayName name)
        = some { value := v.rendered, status := .WARNING, uom := uom, warn := w, critical := c }
    ∧ (addMetric p name v [uom, w, c]).1.messages
        = p.messages ++ [alertText (displayName name) v.rendered uom iw w]
    ∧ (addMetric p name v [uom, w, c]).1.status = worstWins p.status .WARNING := by
  have hcore : addMetricCore p (displayName name) v [uom, w, c]
      = .ok ({ value := v.rendered, status := .WARNING, uom := uom, warn := w, critical := c },
             alertText (displayName name) v.rendered uom iw w) := by
    unfold addMetricCore
    simp [hlk, hval, processThresholds, threshStep, hw, hc, setSpecField, statusOfThresh]
  have heq : addMetric p name v [uom, w, c]
      = (commit p (displayName name)
           { value := v.rendered, status := .WARNING, uom := uom, warn := w, critical := c }
           (alertText (displayName name) v.rendered uom iw w), none) := by
    simp only [addMetric]
    rw [hcore]
  rw [heq, commit_of_msg_pos _ _ _ _ (alertText_length_pos _ _ _ _ _)]
  exact ⟨rfl, lookupM_append_self p.metrics (displayName name) _ hlk, rfl, rfl⟩

/-- Witness for C10: metric 123.456 with warning `100` (breached) and
critical `123.5:` (parses, not breached) stays WARNING and keeps the
warning alert. -/
theorem nonbreaching_critical_keeps_warning_witness :
    (addMetric (New "c" "v") "m1" ⟨"123.456"⟩ ["", "100", "123.4:"]).2 = none
    ∧ lookupM ((addMetric (New "c" "v") "m1" ⟨"123.456"⟩ ["", "100", "123.4:"]).1).metrics "m1"
        = some { value := "123.456", status := .WARNING, uom := "", warn := "100",
                 critical := "123.4:" }
    ∧ (addMetric (New "c" "v") "m1" ⟨"123.456"⟩ ["", "100", "123.4:"]).1.messages
        = [] ++ [alertText "m1" "123.456" "" false "100"]
    ∧ (addMetric (New "c" "v") "m1" ⟨"123.456"⟩ ["", "100", "123.4:"]).1.status
        = worstWins Status.OK Status.WARNING :=
  nonbreaching_critical_keeps_warning (New "c" "v") "m1" ⟨"123.456"⟩ "" "100" "123.4:"
    (mkRat 15432 125) false false (by decide) (by decide) (by decide) (by decide)

/-- Counterexample for C8 as stated: the name `'a b` contains a space but,
because it already starts with a single quote, is not wrapped — the stored
display name is not the quoted form the claim prescribes for every
space-containing name. -/
theorem name_quoting_counterexample :
    ("'a b".data.any (fun ch => ch = ' ') = true)
    ∧ displayName "'a b" ≠ "'" ++ "'a b" ++ "'" := by decide

/-- C8 (amended): a metric name containing a space and not already
beginning with a single quote is wrapped in single quotes once at
registration time, and the resulting display name is what duplicate
detection, alert messages and rendering use; registering `white space`
with value 123.456 and no thresholds yields exactly
`OK: | 'white space'=123.456;;;;` plus newline. -/
theorem name_quoting_amended :
    (∀ name : String, name.data.any (fun ch => ch = ' ') = true →
        name.data.take 1 ≠ ['\''] →
        displayName name = "'" ++ name ++ "'")
    ∧ (addMetric (New "c" "v") "white space" ⟨"123.456"⟩ []).2 = none
    ∧ finalOutput (addMetric (New "c" "v") "white space" ⟨"123.456"⟩ []).1
        = "OK: | 'white space'=123.456;;;;\n"
    ∧ (addMetric (addMetric (New "c" "v") "white space" ⟨"123.456"⟩ []).1
        "white space" ⟨"1"⟩ []).2 = some "Duplicated metric 'white space'"
    ∧ (addMetric (New "c" "v") "a b" ⟨"5"⟩ ["", "1"]).1.messages
        = ["'a b' is 5 (outside 1)"] := by
  refine ⟨?_, by decide, by decide, by decide, by decide⟩
  intro name hsp hq
  unfold displayName
  simp [hsp, hq]

/-- Witness for C8 (amended): the quoting rule applied to `white space`. -/
theorem name_quoting_amended_witness :
    displayName "white space" = "'" ++ "white space" ++ "'" :=
  name_quoting_amended.1 "white space" (by decide) (by decide)

theorem lookupM_perm : ∀ {l1 l2 : List (String × CheckMetric)}, l1.Perm l2 →
    (l1.map Prod.fst).Nodup → ∀ k, lookupM l1 k = lookupM l2 k := by
  intro l1 l2 h
  induction h with
  | nil =>
    intro _ _
    rfl
  | cons x h ih =>
    intro nd k
    obtain ⟨k1, m1⟩ := x
    simp only [List.map_cons, List.nodup_cons] at nd
    unfold lookupM
    by_cases hk : k = k1
    · rw [if_pos hk, if_pos hk]
    · rw [if_neg hk, if_neg hk]
      exact ih nd.2 k
  | swap x y l =>
    intro nd k
    obtain ⟨kx, mx⟩ := x
    obtain ⟨ky, my⟩ := y
    simp only [List.map_cons, List.nodup_cons, List.mem_cons] at nd
    have hxy : ky ≠ kx := fun hh => nd.1 (Or.inl hh)
    by_cases h1 : k = ky <;> by_cases h2 : k = kx
    · exact absurd (h1.symm.trans h2) hxy
    · simp [lookupM, h1, h2, hxy]
    · simp [lookupM, h1, h2, hxy.symm]
    · simp [lookupM, h1, h2]
  | trans h1 h2 ih1 ih2 =>
    intro nd k
    exact (ih1 nd k).trans (ih2 ((h1.map Prod.fst).nodup nd) k)

theorem sortStrings_sorted (l : List String) :
    (sortStrings l).Sorted (fun a b : String => a ≤ b) :=
  List.sorted_insertionSort _ l

theorem sortStrings_perm_eq {l1 l2 : List String} (h : l1.Perm l2) :
    sortStrings l1 = sortStrings l2 :=
  List.eq_of_perm_of_sorted
    ((List.perm_insertionSort _ l1).trans (h.trans (List.perm_insertionSort _ l2).symm))
    (sortStrings_sorted l1) (sortStrings_sorted l2)

/-- C7: the metrics section is emitted exactly when at least one metric
exists; the rendered metric keys are always in ascending lexicographic
order; the rendered output is invariant under permuting the stored metric
list (insertion order); and rendering the same state twice yields the same
output (`Final`'s rendering is a pure read). -/
theorem render_sorted_deterministic :
    (∀ p : Plugin, p.metrics = [] → metricsBlock p = "")
    ∧ (∀ p : Plugin, p.metrics ≠ [] → metricsBlock p ≠ "")
    ∧ (∀ p : Plugin, (renderedKeys p).Sorted (fun a b : String => a ≤ b))
    ∧ (∀ (p : Plugin) (l2 : List (String × CheckMetric)), p.metrics.Perm l2 →
        (p.metrics.map Prod.fst).Nodup →
        finalOutput p = finalOutput { p with metrics := l2 })
    ∧ (∀ p : Plugin, finalOutput p = finalOutput p) := by
  refine ⟨?_, ?_, ?_, ?_, fun p => rfl⟩
  · intro p h
    unfold metricsBlock
    rw [h]
    simp
  · intro p h
    unfold metricsBlock
    rw [if_pos (by simpa using List.length_pos.mpr h)]
    intro heq
    have hlen := congrArg String.length heq
    rw [String.length_append] at hlen
    have h2 : (" |" : String).length = 2 := rfl
    have h0 : ("" : String).length = 0 := rfl
    omega
  · intro p
    exact sortStrings_sorted _
  · intro p l2 hperm hnd
    have hblock : metricsBlock p = metricsBlock { p with metrics := l2 } := by
      unfold metricsBlock renderedKeys
      dsimp only
      have hlen : p.metrics.length = l2.length := hperm.length_eq
      have hkeys : sortStrings (p.metrics.map Prod.fst) = sortStrings (l2.map Prod.fst) :=
        sortStrings_perm_eq (hperm.map Prod.fst)
      have hrm : renderMetric p = renderMetric { p with metrics := l2 } := by
        funext k
        unfold renderMetric
        dsimp only
        rw [lookupM_perm hperm hnd k]
      rw [hlen, hkeys, hrm]
    unfold finalOutput
    dsimp only
    rw [hblock]

/-- Witness for C7: two metrics inserted in reverse name order render the
same line as the sorted insertion, and the fresh plugin renders no metrics
section. -/
theorem render_sorted_deterministic_witness :
    finalOutput
        { status := Status.OK, messages := [],
          metrics := [("m2", ⟨"2", Status.OK, "", "", ""⟩), ("m1", ⟨"1", Status.OK, "", "", ""⟩)],
          Name := "c", Version := "v", AllMetricsInOutput := false, MessageSeparator := ", " }
      = finalOutput
        { status := Status.OK, messages := [],
          metrics := [("m1", ⟨"1", Status.OK, "", "", ""⟩), ("m2", ⟨"2", Status.OK, "", "", ""⟩)],
          Name := "c", Version := "v", AllMetricsInOutput := false, MessageSeparator := ", " }
    ∧ metricsBlock (New "c" "v") = "" :=
  ⟨render_sorted_deterministic.2.2.2.1
      { status := Status.OK, messages := [],
        metrics := [("m2", ⟨"2", Status.OK, "", "", ""⟩), ("m1", ⟨"1", Status.OK, "", "", ""⟩)],
        Name := "c", Version := "v", AllMetricsInOutput := false, MessageSeparator := ", " }
      [("m1", ⟨"1", Status.OK, "", "", ""⟩), ("m2", ⟨"2", Status.OK, "", "", ""⟩)]
      (by decide) (by decide),
   render_sorted_deterministic.1 (New "c" "v") rfl⟩
